import Mathlib

/-!
Verification development for the Dragon engagement pipeline
(`dragon_core`: `policy.py`, `storage.py`, `engage.py`, `planner.py`,
`state.py`, `agent.py`).

The Python source is shallowly embedded: JSON values become the inductive
type `JVal`; Python dict/str coercions (`str(x)`, truthiness, `dict.get`)
become explicit helper functions; file-system queue directories become
association lists from file name to parsed content; machine integers are
`Int` (Python integers are unbounded, so no wrap-around modelling is
needed); code that may raise becomes `Except`/`Option`-valued or is given
an explicit error constructor.  Ambient effects (wall-clock time, fresh
uuid generation, the outbound HTTP senders, ledger logging and sleeping)
are threaded as explicit parameters; logging and sleeping have no effect
on the data the theorems below speak about and are dropped.
-/

namespace Dragon

/-- JSON-like values, the payloads and job files the pipeline moves around.
Numbers are `Int`: every numeric field the pipeline produces or inspects is
an integer (unix timestamps, ids, follower counts). -/
inductive JVal where
  | null
  | bool (b : Bool)
  | num (n : Int)
  | str (s : String)
  | arr (xs : List JVal)
  | obj (fields : List (String × JVal))

/-- First-match association-list lookup, the embedding of Python dict lookup
(dict keys are unique, so first-match agrees with dict semantics). -/
def alookup {α : Type} : List (String × α) → String → Option α
  | [], _ => none
  | (k, v) :: rest, key => if k = key then some v else alookup rest key

/-- Replace-or-append update, the embedding of Python `d[k] = v`. -/
def mapSet {α : Type} : List (String × α) → String → α → List (String × α)
  | [], key, v => [(key, v)]
  | (k, w) :: rest, key, v =>
    if k = key then (key, v) :: rest else (k, w) :: mapSet rest key v

/-- Field list of a JSON object (empty for non-objects). -/
def jFields : JVal → List (String × JVal)
  | .obj fs => fs
  | _ => []

/-- Embedding of `d.get(key)` on a JSON object.  On a non-object Python
would raise `AttributeError`; every call site in the source reaches this
only with dict values, and we return `none` there. -/
def jLookup (j : JVal) (key : String) : Option JVal :=
  match j with
  | .obj fs => alookup fs key
  | _ => none

/-- Embedding of `d.get(key, default)`. -/
def jGetD (j : JVal) (key : String) (d : JVal) : JVal :=
  (jLookup j key).getD d

/-- Embedding of `d[k] = v` on a JSON object value. -/
def jSet (j : JVal) (key : String) (v : JVal) : JVal :=
  .obj (mapSet (jFields j) key v)

/-- Python truthiness on JSON values: `None`, `False`, `0`, `""`, `[]` and
`{}` are falsy. -/
def pyFalsy : JVal → Bool
  | .null => true
  | .bool b => !b
  | .num n => n == 0
  | .str s => s == ""
  | .arr xs => xs.isEmpty
  | .obj fs => fs.isEmpty

/-- Embedding of Python `str(...)` on the values the pipeline feeds to it.
The `arr`/`obj` branches stand in for Python reprs; no claim exercises
them. -/
def pyStr : JVal → String
  | .str s => s
  | .num n => toString n
  | .bool true => "True"
  | .bool false => "False"
  | .null => "None"
  | .arr _ => "<list>"
  | .obj _ => "<dict>"

/-- Embedding of `str(v or "")`: falsy values collapse to the empty
string. -/
def pyOrStr (v : JVal) : String :=
  if pyFalsy v then "" else pyStr v

/-- Trim on the character list, used to embed Python `str.strip()`
(kernel-reducible, unlike `String.trim`). -/
def listTrim (cs : List Char) : List Char :=
  ((cs.dropWhile Char.isWhitespace).reverse.dropWhile Char.isWhitespace).reverse

/-- Embedding of Python `str.strip()`. -/
def sTrim (s : String) : String :=
  String.mk (listTrim s.toList)

/-- Embedding of Python `str.lower()` (the source only lowers ASCII). -/
def sLower (s : String) : String :=
  String.mk (s.toList.map Char.toLower)

/-- Embedding of Python slicing `s[:n]`. -/
def sTake (s : String) (n : Nat) : String :=
  String.mk (s.toList.take n)

/-- Left-to-right non-overlapping replacement of CR LF by LF on character
lists. -/
def replCRLF : List Char → List Char
  | [] => []
  | '\r' :: '\n' :: rest => '\n' :: replCRLF rest
  | c :: rest => c :: replCRLF rest

/-- Embedding of `text.replace("\r\n", "\n")`. -/
def sReplaceCRLF (s : String) : String :=
  String.mk (replCRLF s.toList)

/-- Decimal digit accumulation for `pyToInt`. -/
def digitsValGo : List Char → Nat → Option Nat
  | [], acc => some acc
  | c :: cs, acc =>
    if c.isDigit then digitsValGo cs (acc * 10 + (c.toNat - 48)) else none

/-- Embedding of `int(s)` wrapped in `try/except`: strip whitespace, an
optional sign, then decimal digits; anything else is `none`. -/
def pyToInt (s : String) : Option Int :=
  match (sTrim s).toList with
  | [] => none
  | '-' :: cs =>
    match cs with
    | [] => none
    | _ => (digitsValGo cs 0).map (fun n => -(n : Int))
  | '+' :: cs =>
    match cs with
    | [] => none
    | _ => (digitsValGo cs 0).map (fun n => (n : Int))
  | cs => (digitsValGo cs 0).map (fun n => (n : Int))

/-- Prefix test on character lists (needle first). -/
def listHasPre : List Char → List Char → Bool
  | [], _ => true
  | _ :: _, [] => false
  | a :: as, b :: bs => a == b && listHasPre as bs

/-- Substring scan used to embed Python `needle in haystack`. -/
def strContainsGo (needle : List Char) : List Char → Bool
  | [] => needle.isEmpty
  | c :: rest => listHasPre needle (c :: rest) || strContainsGo needle rest

/-- Embedding of Python `needle in haystack` on strings. -/
def strContains (hay needle : String) : Bool :=
  strContainsGo needle.toList hay.toList

/-- Kernel-reducible lexicographic comparison on character lists, the order
Python uses to compare strings (by code point). -/
def lexLe : List Char → List Char → Bool
  | [], _ => true
  | _ :: _, [] => false
  | a :: as, b :: bs =>
    if a.toNat < b.toNat then true
    else if b.toNat < a.toNat then false
    else lexLe as bs

/-- Python string `<=` (code-point lexicographic). -/
def strLe (s t : String) : Bool := lexLe s.toList t.toList

/-- Python string `<` (code-point lexicographic). -/
def strLt (s t : String) : Bool := strLe s t && !(s == t)

/-- ASCII apostrophe, kept out of string literals. -/
def apoS : String := String.singleton (Char.ofNat 39)

/-!
## Policy validator (`dragon_core/policy.py`)

The three pattern families are fixed regular expressions.  They are
embedded as token lists for a small matcher supporting exactly the
constructs they use: literals, `\b`, `\d{n}`, a one-character class, an
optional literal and a two-way literal alternation.  `reSearch` has
Python `re.search` semantics (match at any position).
-/

/-- Tokens of the tiny regular-expression dialect used by the policy
patterns. -/
inductive RTok where
  | wb
  | lit (s : String)
  | opt (s : String)
  | digits (n : Nat)
  | cls (cs : List Char)
  | alt2 (s1 s2 : String)

/-- Word character in the sense of `\w` (the source texts are ASCII). -/
def isWordChar (c : Char) : Bool := c.isAlphanum || c == '_'

/-- Consume a literal; returns the new previous-character context and the
remaining input. -/
def eatLit : List Char → Option Char → List Char → Option (Option Char × List Char)
  | [], prev, rest => some (prev, rest)
  | _ :: _, _, [] => none
  | c :: cs, _, r :: rs => if c == r then eatLit cs (some r) rs else none

/-- Consume exactly `n` decimal digits (`\d{n}`). -/
def eatDigits : Nat → Option Char → List Char → Option (Option Char × List Char)
  | 0, prev, rest => some (prev, rest)
  | _ + 1, _, [] => none
  | n + 1, _, r :: rs => if r.isDigit then eatDigits n (some r) rs else none

/-- Match a token list at the current position.  `prev` is the character
just before the position, needed for `\b`. -/
def matchToks : List RTok → Option Char → List Char → Bool
  | [], _, _ => true
  | .wb :: ts, prev, rest =>
    let before := match prev with | none => false | some c => isWordChar c
    let after := match rest with | [] => false | c :: _ => isWordChar c
    if before != after then matchToks ts prev rest else false
  | .lit s :: ts, prev, rest =>
    match eatLit s.toList prev rest with
    | some (p, r) => matchToks ts p r
    | none => false
  | .opt s :: ts, prev, rest =>
    (match eatLit s.toList prev rest with
     | some (p, r) => matchToks ts p r
     | none => false) || matchToks ts prev rest
  | .digits n :: ts, prev, rest =>
    match eatDigits n prev rest with
    | some (p, r) => matchToks ts p r
    | none => false
  | .cls _ :: _, _, [] => false
  | .cls cs :: ts, _, r :: rs =>
    if cs.contains r then matchToks ts (some r) rs else false
  | .alt2 s1 s2 :: ts, prev, rest =>
    (match eatLit s1.toList prev rest with
     | some (p, r) => matchToks ts p r
     | none => false) ||
    (match eatLit s2.toList prev rest with
     | some (p, r) => matchToks ts p r
     | none => false)

/-- Search for a match at any position (`re.search`). -/
def searchToks (toks : List RTok) : Option Char → List Char → Bool
  | prev, [] => matchToks toks prev []
  | prev, c :: rs => matchToks toks prev (c :: rs) || searchToks toks (some c) rs

/-- Boolean `re.search(pattern, s)`. -/
def reSearch (toks : List RTok) (s : String) : Bool :=
  searchToks toks none s.toList

/-- Separator class `[-.\s]` of the third personal-data pattern. -/
def clsSep : List Char := ['-', '.', ' ', '\t', '\n', '\r', Char.ofNat 11, Char.ofNat 12]

/-- The `_FINANCE_PROMISE_PATTERNS` list: regex source paired with its
token compilation. -/
def _FINANCE_PROMISE_PATTERNS : List (String × List RTok) :=
  [ ("\\bguarantee(d)?\\b", [.wb, .lit "guarantee", .opt "d", .wb]),
    ("\\bfree money\\b", [.wb, .lit "free money", .wb]),
    ("\\bcan" ++ apoS ++ "t lose\\b", [.wb, .lit ("can" ++ apoS ++ "t lose"), .wb]),
    ("\\b100%\\b", [.wb, .lit "100%", .wb]),
    ("\\bdouble your\\b", [.wb, .lit "double your", .wb]),
    ("\\b(to the moon)\\b", [.wb, .lit "to the moon", .wb]) ]

/-- The `_PERSONAL_DATA_PATTERNS` list. -/
def _PERSONAL_DATA_PATTERNS : List (String × List RTok) :=
  [ ("\\b\\d{3}-\\d{2}-\\d{4}\\b",
      [.wb, .digits 3, .lit "-", .digits 2, .lit "-", .digits 4, .wb]),
    ("\\b\\d{10}\\b", [.wb, .digits 10, .wb]),
    ("\\b\\d{3}[-.\\s]\\d{3}[-.\\s]\\d{4}\\b",
      [.wb, .digits 3, .cls clsSep, .digits 3, .cls clsSep, .digits 4, .wb]) ]

/-- The `_HARASSMENT_PATTERNS` list. -/
def _HARASSMENT_PATTERNS : List (String × List RTok) :=
  [ ("\\bkill yourself\\b", [.wb, .lit "kill yourself", .wb]),
    ("\\bgo die\\b", [.wb, .lit "go die", .wb]),
    ("\\bstupid (idiot|moron)\\b", [.wb, .lit "stupid ", .alt2 "idiot" "moron", .wb]) ]

/-- The `PolicyDecision` dataclass. -/
structure PolicyDecision where
  allowed : Bool
  reasons : List String
  sanitized_text : String

/-- Embedding of `_sanitize`: normalize CR LF, strip, cap at 2000 characters. -/
def _sanitize (text : String) : String :=
  sTake (sTrim (sReplaceCRLF text)) 2000

/-- Embedding of `evaluate_text`: empty text short-circuits with reason `empty`;
otherwise every pattern family is scanned and each hit appends a distinct
reason. -/
def evaluate_text (text : String) : PolicyDecision :=
  let t := sTrim text
  if t = "" then { allowed := false, reasons := ["empty"], sanitized_text := "" }
  else
    let lowered := sLower t
    let r1 := _FINANCE_PROMISE_PATTERNS.filterMap
      (fun p => if reSearch p.2 lowered then some ("finance_promise:" ++ p.1) else none)
    let r2 := _PERSONAL_DATA_PATTERNS.filterMap
      (fun p => if reSearch p.2 t then some ("personal_data:" ++ p.1) else none)
    let r3 := _HARASSMENT_PATTERNS.filterMap
      (fun p => if reSearch p.2 lowered then some ("harassment:" ++ p.1) else none)
    let reasons := r1 ++ r2 ++ r3
    { allowed := reasons.isEmpty, reasons := reasons, sanitized_text := _sanitize t }

/-- Embedding of `validate_action`: accumulates `invalid_type`, `invalid_channel`, the
text reasons and `missing_in_reply_to` in source order, and always returns
the normalized action. -/
def validate_action (action : JVal) : Bool × List String × JVal :=
  let action_type := sLower (sTrim (pyStr (jGetD action "type" (.str ""))))
  let channel := sLower (sTrim (pyStr (jGetD action "channel" (.str ""))))
  let text := sTrim (pyStr (jGetD action "text" (.str "")))
  let rType := if action_type = "post" ∨ action_type = "reply" then [] else ["invalid_type"]
  let rChan := if channel = "moltbook" ∨ channel = "x" then [] else ["invalid_channel"]
  let decision := evaluate_text text
  let rText := if decision.allowed then [] else decision.reasons
  let normalized :=
    jSet (jSet (jSet action "type" (.str action_type)) "channel" (.str channel))
      "text" (.str decision.sanitized_text)
  let rReply :=
    if action_type = "reply" ∧ pyFalsy (jGetD action "in_reply_to" .null) then
      ["missing_in_reply_to"]
    else []
  let reasons := rType ++ rChan ++ rText ++ rReply
  (reasons.isEmpty, reasons, normalized)

/-!
## Job store (`dragon_core/storage.py`)

A queue directory is an association list from file name to the parsed
JSON content of the file; `write_json_atomic` is `insertFile` (an atomic
overwrite-or-create), `os.replace` between directories is `move_job`.
-/

/-- File-name presence test in a directory. -/
def existsFile {α : Type} (l : List (String × α)) (name : String) : Bool :=
  (alookup l name).isSome

/-- Atomic write: overwrite the file if present, else create it. -/
def insertFile {α : Type} (l : List (String × α)) (name : String) (v : α) :
    List (String × α) :=
  mapSet l name v

/-- Remove a file from a directory. -/
def eraseFile {α : Type} : List (String × α) → String → List (String × α)
  | [], _ => []
  | (k, v) :: rest, name =>
    if k = name then rest else (k, v) :: eraseFile rest name

/-- Number of files with the given name (0 or 1 for a real directory). -/
def countName {α : Type} (l : List (String × α)) (name : String) : Nat :=
  (l.filter (fun p => p.1 == name)).length

/-- Result of `enqueue_actions`: the new outbox, the created job names in
order, and the state of the fresh-id supply (embedding `uuid4`). -/
structure EnqueueResult where
  outbox : List (String × JVal)
  created : List String
  ctr : Nat

/-- Embedding of `enqueue_actions`: stamp `action_id` (fresh if absent or falsy) and
`created_unix` (`setdefault`), then write `<action_id>.json` to the
outbox unless a file of that name already exists, in which case the
action is skipped silently. -/
def enqueue_actions (genId : Nat → String) (now : Int) :
    List (String × JVal) → List JVal → Nat → EnqueueResult
  | outbox, [], ctr => ⟨outbox, [], ctr⟩
  | outbox, a :: rest, ctr =>
    let idAndCtr : String × Nat :=
      match jLookup a "action_id" with
      | some v => if pyFalsy v then (genId ctr, ctr + 1) else (pyStr v, ctr)
      | none => (genId ctr, ctr + 1)
    let a1 := jSet a "action_id" (.str idAndCtr.1)
    let a2 :=
      if (jLookup a1 "created_unix").isSome then a1
      else jSet a1 "created_unix" (.num now)
    let name := idAndCtr.1 ++ ".json"
    if existsFile outbox name then
      enqueue_actions genId now outbox rest idAndCtr.2
    else
      let r := enqueue_actions genId now (insertFile outbox name a2) rest idAndCtr.2
      ⟨r.outbox, name :: r.created, r.ctr⟩

/-- Insertion step of the deterministic name sort. -/
def insertSorted (x : String) : List String → List String
  | [] => [x]
  | y :: ys => if strLe x y then x :: y :: ys else y :: insertSorted x ys

/-- Sort file names code-point lexicographically, the order `sorted` and
the glob produce in the source. -/
def sortNames : List String → List String
  | [] => []
  | x :: xs => insertSorted x (sortNames xs)

/-- Embedding of `list_outbox`: sorted job names, capped at `max(1, limit)`. -/
def list_outbox (outbox : List (String × JVal)) (limit : Int) : List String :=
  (sortNames (outbox.map Prod.fst)).take (max 1 limit).toNat

/-- Embedding of `move_job`: an `os.replace` of a job file between two directories; the
destination is overwritten if it exists.  A missing source is unreached
(the caller just read the file). -/
def move_job (srcName : String) (src dst : List (String × JVal)) :
    List (String × JVal) × List (String × JVal) :=
  match alookup src srcName with
  | none => (src, dst)
  | some content => (eraseFile src srcName, insertFile dst srcName content)

/-!
## Engager (`dragon_core/engage.py`)

`engage.py` imports the queue primitives under the names `enqueue` and
`move`; the definitions in `storage.py` are `enqueue_actions` and
`move_job`, which are what the embedding binds them to.  The channel
clients (`XClient`/`MoltbookClient`) are abstracted as a `Sender`
returning `some receipt` on success and `none` when the dispatch raises
(network/API failure).  Ledger logging and the inter-send cooldown sleep
carry no queue effect and are elided.
-/

/-- Outbound dispatch capability: channel, action type, text, optional
reply target; `none` models a raised transient error. -/
def Sender : Type :=
  String → String → String → Option String → Option JVal

/-- The `EngageConfig` dataclass. -/
structure EngageConfig where
  max_per_run : Int := 4
  cooldown_sec : Int := 30
  require_freshness_ok : Bool := true

/-- The three queue directories of one runtime. -/
structure QueueState where
  outbox : List (String × JVal)
  sent : List (String × JVal)
  dead : List (String × JVal)

/-- Result of `execute_outbox`: final queue state, number of dispatch
attempts, number of successful executions, and the (always 0) return
value. -/
structure ExecResult where
  state : QueueState
  dispatched : Nat
  executed : Nat
  ret : Int

/-- One loop iteration of `execute_outbox` for the job file `name`:
re-validate (gate #2, dead-letter on failure), dispatch, and on success
stamp `receipt`/`executed_unix`, write the stamped copy to `sent`, then
`os.replace` the source file into `sent` (which overwrites the stamped
copy) and drop it from the outbox.  Any raised dispatch error leaves the
job untouched (fail-open). -/
def execStep (send : Sender) (now : Int)
    (acc : QueueState × Nat × Nat) (name : String) : QueueState × Nat × Nat :=
  let st := acc.1
  match alookup st.outbox name with
  | none => acc
  | some job =>
    let v := validate_action job
    if v.1 = false then
      let moved := move_job name st.outbox st.dead
      (⟨moved.1, st.sent, moved.2⟩, acc.2.1, acc.2.2)
    else
      let norm := v.2.2
      let channel := pyStr (jGetD norm "channel" (.str ""))
      let action_type := pyStr (jGetD norm "type" (.str ""))
      let text := pyStr (jGetD norm "text" (.str ""))
      if channel == "x" || channel == "moltbook" then
        match
          (if action_type == "post" then some (send channel "post" text none)
           else
             match jLookup norm "in_reply_to" with
             | none => none
             | some tv => some (send channel "reply" text (some (pyStr tv)))) with
        | none => acc
        | some res =>
          let d := acc.2.1 + 1
          match res with
          | none => (st, d, acc.2.2)
          | some receipt =>
            let stamped := jSet (jSet norm "receipt" receipt) "executed_unix" (.num now)
            let sent1 := insertFile st.sent name stamped
            let moved := move_job name st.outbox sent1
            (⟨moved.1, moved.2, st.dead⟩, d, acc.2.2 + 1)
      else
        let moved := move_job name st.outbox st.dead
        (⟨moved.1, st.sent, moved.2⟩, acc.2.1, acc.2.2)

/-- Embedding of `execute_outbox`: skip entirely when the freshness gate is required
and false; otherwise process up to `max_per_run` jobs in sorted name
order.  The job list is computed once, before any move. -/
def execute_outbox (cfg : EngageConfig) (send : Sender) (now : Int)
    (freshness_ok : Bool) (st : QueueState) : ExecResult :=
  if cfg.require_freshness_ok && !freshness_ok then ⟨st, 0, 0, 0⟩
  else
    let jobs := list_outbox st.outbox cfg.max_per_run
    let r := jobs.foldl (execStep send now) (st, 0, 0)
    ⟨r.1, r.2.1, r.2.2, 0⟩

/-!
## Persistent state (`dragon_core/state.py`)

`DragonState.from_dict` copies raw JSON values into the dataclass without
validation; every consumer in the source reads the fields at the types
below, which is how the decoders project them.
-/

/-- The `DragonState` dataclass. -/
structure DragonState where
  x_user_id : Option String := none
  x_since_id : Option String := none
  x_search_since_ids : Option (List (String × String)) := none
  replied_tweet_ids : Option (List (String × Int)) := none
  last_daily_post_unix_x : Option Int := none
  last_daily_post_unix_moltbook : Option Int := none
  last_run_unix : Option Int := none
deriving DecidableEq

/-- Projection of a JSON value to an optional string field. -/
def asStr : JVal → Option String
  | .str s => some s
  | _ => none

/-- Projection of a JSON value to an optional integer field. -/
def asInt : JVal → Option Int
  | .num n => some n
  | _ => none

/-- Projection of a JSON object to a string-to-string map field. -/
def decodeStrMap (v : JVal) : List (String × String) :=
  (jFields v).filterMap (fun kv =>
    match kv.2 with
    | .str s => some (kv.1, s)
    | _ => none)

/-- Projection of a JSON object to a string-to-int map field. -/
def decodeIntMap (v : JVal) : List (String × Int) :=
  (jFields v).filterMap (fun kv =>
    match kv.2 with
    | .num n => some (kv.1, n)
    | _ => none)

/-- Embedding of `x or default` on JSON values. -/
def pyOr (v d : JVal) : JVal :=
  if pyFalsy v then d else v

/-- Embedding of `DragonState.from_dict`: field-by-field read with `or {}` on the two
map fields. -/
def DragonState.from_dict (d : JVal) : DragonState where
  x_user_id := (jLookup d "x_user_id").bind asStr
  x_since_id := (jLookup d "x_since_id").bind asStr
  x_search_since_ids := some (decodeStrMap (pyOr (jGetD d "x_search_since_ids" .null) (.obj [])))
  replied_tweet_ids := some (decodeIntMap (pyOr (jGetD d "replied_tweet_ids" .null) (.obj [])))
  last_daily_post_unix_x := (jLookup d "last_daily_post_unix_x").bind asInt
  last_daily_post_unix_moltbook := (jLookup d "last_daily_post_unix_moltbook").bind asInt
  last_run_unix := (jLookup d "last_run_unix").bind asInt

/-- What `runtime/dragon/state.json` can look like to `load_state`: absent,
unreadable or syntactically invalid JSON, or a parsed JSON value. -/
inductive StateFile where
  | missing
  | invalid
  | valid (j : JVal)

/-- The safe empty defaults `DragonState(x_search_since_ids={},
replied_tweet_ids={})`. -/
def emptyDefaultState : DragonState :=
  { x_search_since_ids := some [], replied_tweet_ids := some [] }

/-- Embedding of `load_state`: missing file or any exception while reading/decoding
(invalid JSON, or a JSON value that is not an object, on which `from_dict`
raises) falls back to the safe empty defaults; a decoded state gets its
two map fields normalized to `{}` when falsy. -/
def load_state : StateFile → DragonState
  | .missing => emptyDefaultState
  | .invalid => emptyDefaultState
  | .valid j =>
    match j with
    | .obj _ =>
      let st := DragonState.from_dict j
      { st with
          x_search_since_ids := some ((st.x_search_since_ids).getD []),
          replied_tweet_ids := some ((st.replied_tweet_ids).getD []) }
    | _ => emptyDefaultState

/-!
## Freshness gate (`dragon_core/agent.py`, `validate_snapshot`)

The hawk runtime directory is a map from file name to content; content is
either unparseable (`read_json` raises, wrapped into a contract error) or
a parsed JSON value.  `now_utc()` and ISO-8601 parsing are threaded as
`now` and `parseTick` (timestamps in unix seconds); `parse_last_tick_utc`
returns `none` for a non-string value and for an unparseable string.
Ledger emission and sha256 evidence hashing carry no effect on the
result and are elided.
-/

/-- Content of one hawk input file as seen by `read_json`. -/
inductive FileContent where
  | invalid
  | valid (j : JVal)

/-- The `DragonContractError` raise sites of `validate_snapshot`. -/
inductive ContractError where
  | missingHawkDir
  | missingInput (fname : String)
  | invalidJson (fname : String)
  | missingKey (key fname : String)
  | freshnessNotNumber
deriving DecidableEq

/-- The freshness verdict carried by the returned `RuntimeSnapshot`. -/
structure SnapshotResult where
  freshness_ok : Bool
  freshness_reason : String
deriving DecidableEq

/-- The `REQUIRED_HAWK_FILES` map: file name paired with its required keys, in
source (dict insertion) order. -/
def REQUIRED_HAWK_FILES : List (String × List String) :=
  [("status.json", ["last_tick_utc", "data_freshness_sec"]),
   ("positions.json", []),
   ("orders.json", []),
   ("risk.json", []),
   ("performance.json", [])]

/-- The file-loading loop of `validate_snapshot`: each required file must
exist, parse, and contain its required keys; the first failure raises. -/
def loadHawkFiles (files : String → Option FileContent) :
    List (String × List String) → Except ContractError (List (String × JVal))
  | [] => .ok []
  | (fname, keys) :: rest =>
    match files fname with
    | none => .error (.missingInput fname)
    | some .invalid => .error (.invalidJson fname)
    | some (.valid j) =>
      match keys.find? (fun k => (jLookup j k).isNone) with
      | some k => .error (.missingKey k fname)
      | none => (loadHawkFiles files rest).map (fun l => (fname, j) :: l)

/-- Embedding of `validate_snapshot`: require the hawk dir and all five inputs, require
`data_freshness_sec` to be a number (a Python bool passes as an int), then
compute the freshness verdict: unparseable `last_tick_utc` or a stale tick
age marks not-ok, and a stale `data_freshness_sec` overrides the reason. -/
def validate_snapshot (hawkDirExists : Bool)
    (files : String → Option FileContent) (now : Int)
    (parseTick : String → Option Int) (freshness_limit_sec : Int) :
    Except ContractError SnapshotResult :=
  if hawkDirExists = false then .error .missingHawkDir
  else
    match loadHawkFiles files REQUIRED_HAWK_FILES with
    | .error e => .error e
    | .ok loaded =>
      let status := (alookup loaded "status.json").getD .null
      let last_tick : Option Int :=
        match jLookup status "last_tick_utc" with
        | some (.str s) => parseTick s
        | _ => none
      let freshness_sec : Option Int :=
        match jLookup status "data_freshness_sec" with
        | some (.num n) => some n
        | some (.bool b) => some (if b then 1 else 0)
        | _ => none
      match freshness_sec with
      | none => .error .freshnessNotNumber
      | some fs =>
        let okr1 : Bool × String :=
          match last_tick with
          | none => (false, "INVALID_LAST_TICK")
          | some lt =>
            let age := now - lt
            if age > freshness_limit_sec then
              (false, "STALE_LAST_TICK_" ++ toString age ++ "s")
            else (true, "OK")
        let okr2 : Bool × String :=
          if fs > freshness_limit_sec then
            (false, "STALE_FRESHNESS_" ++ toString fs ++ "s")
          else okr1
        .ok ⟨okr2.1, okr2.2⟩

/-!
## Planner (`dragon_core/planner.py`)

`plan_actions` is pure given its inputs; the status-snippet file read
(`_safe_status_snippet`) is threaded as the `snip` string, and
`time.time()` as `now`.  Tweets, payloads and emitted actions are `JVal`
objects, exactly the dict shapes of the source.
-/

/-- The `PlanConfig` dataclass. -/
structure PlanConfig where
  daily_post_cooldown_sec : Int := 86400
  max_mention_replies_per_run : Int := 3
  max_initiate_replies_per_run : Int := 2
  min_followers_to_reply : Int := 25
  max_replies_per_author_per_run : Int := 1

/-- Embedding of `_extract_user_map`: author id to user object from `includes.users`;
entries with a falsy id are dropped, later duplicates overwrite. -/
def _extract_user_map (payload : JVal) : List (String × JVal) :=
  let inc := pyOr (jGetD payload "includes" .null) (.obj [])
  let users := pyOr (jGetD inc "users" .null) (.arr [])
  match users with
  | .arr us =>
    us.foldl (fun m u =>
      let uid := pyOrStr (jGetD u "id" .null)
      if uid = "" then m else mapSet m uid u) []
  | _ => []

/-- Numeric id of a tweet as `_max_id` sees it: the `id` field must be
present, truthy, and parse as an integer. -/
def tweetNumId (t : JVal) : Option Int :=
  match jLookup t "id" with
  | none => none
  | some v => if pyFalsy v then none else pyToInt (pyStr v)

/-- Accumulating loop of `_max_id`. -/
def _max_id_go : List JVal → Option Int → Option Int
  | [], best => best
  | t :: rest, best =>
    match tweetNumId t with
    | none => _max_id_go rest best
    | some n =>
      _max_id_go rest (some (match best with | none => n | some b => max b n))

/-- Embedding of `_max_id`: decimal string of the largest numeric id, if any. -/
def _max_id (items : List JVal) : Option String :=
  (_max_id_go items none).map toString

/-- The fixed rotation `_daily_templates`. -/
def _daily_templates : List String :=
  ["🐉 Dragon online. Shipping deterministic automation—evidence-first, no hype. {snip}",
   "Built another muscle today: guardrails, receipts, and ruthless simplicity. {snip}",
   "Operating principle: if it can’t be audited, it doesn’t exist. {snip}",
   "Quiet progress > loud promises. Cleaner loops, fewer failure modes. {snip}",
   "Automation that respects reality: rate limits, state, fail-closed. {snip}",
   "Dragon’s job: make the system boring, reliable, undeniable. {snip}",
   "No vibes. Just contracts + ledgers + execution discipline. {snip}"]

/-- Embedding of `_pick_template`: deterministic rotation with a channel offset. -/
def _pick_template (channel : String) (day_index : Int) : String :=
  let templates := _daily_templates
  let offset : Int := if channel = "x" then 0 else 3
  templates.getD ((day_index + offset).emod (templates.length : Int)).toNat ""

/-- The placeholder token of `str.format`, built without brace literals. -/
def snipTok : List Char :=
  Char.ofNat 123 :: 's' :: 'n' :: 'i' :: 'p' :: [Char.ofNat 125]

/-- Embedding of `tmpl.format(snip=snip)`: replace each placeholder token;
the templates contain no other format fields. -/
def fmtSnip (snip : String) : List Char → List Char
  | [] => []
  | c :: c1 :: c2 :: c3 :: c4 :: c5 :: rest2 =>
    if listHasPre snipTok (c :: c1 :: c2 :: c3 :: c4 :: [c5]) then
      snip.toList ++ fmtSnip snip rest2
    else c :: fmtSnip snip (c1 :: c2 :: c3 :: c4 :: c5 :: rest2)
  | c :: rest => c :: fmtSnip snip rest

/-- Format the template and strip, as the daily-post branch does. -/
def formatTemplate (tmpl snip : String) : String :=
  sTrim (String.mk (fmtSnip snip tmpl.toList))

/-- The `_KEYWORDS` topic sets, in source order. -/
def _KEYWORDS : List (String × List String) :=
  [("agents", ["agent", "agents", "autonomous", "autonomy", "multi-agent", "workflow", "orchestration"]),
   ("dev", ["code", "python", "repo", "github", "library", "package", "sdk", "api"]),
   ("ops", ["ops", "operations", "process", "controls", "audit", "ledger", "policy"]),
   ("construction", ["construction", "dfh", "division 8", "doors", "frames", "hardware", "submittal", "rfi"]),
   ("security", ["security", "privacy", "auth", "token", "oauth", "keys", "credential"]),
   ("trading", ["market", "stocks", "options", "trading", "alpha", "edge", "signal"])]

/-- Embedding of `_classify_intent`: substring-hit counts per label; winner is highest
score, ties broken by lexicographically smallest label; no hits is
`general`. -/
def _classify_intent (text : String) : String :=
  let t := sLower text
  let hits := _KEYWORDS.filterMap (fun lw =>
    let score := (lw.2.filter (fun w => strContains t w)).length
    if score ≠ 0 then some (lw.1, score) else none)
  match hits with
  | [] => "general"
  | h :: rest =>
    (rest.foldl (fun best cur =>
      if cur.2 > best.2 ∨ (cur.2 = best.2 ∧ strLt cur.1 best.1 = true) then cur
      else best) h).1

/-- Embedding of `_reply_body`: fixed reply template per intent; initiate replies use
the softer variants. -/
def _reply_body (intent : String) (initiate : Bool) : String :=
  if initiate then
    if intent = "agents" then
      "Saw this—solid. I build deterministic agents (contracts + receipts). What’s your agent actually allowed to *do*?"
    else if intent = "dev" then
      "This is the kind of build I respect. Where are you drawing the line between state, policy, and execution?"
    else if intent = "ops" then
      "Love the ops angle. What’s the one control you wish you could enforce automatically without drama?"
    else if intent = "security" then
      "Good take. Are you using OAuth user-context tokens, or service keys + delegation?"
    else if intent = "construction" then
      "This hits. Are you closer to estimating, submittals, or field QA automation?"
    else
      "Respect. I’m building deterministic automation with receipts (no hype). What are you shipping right now?"
  else
    if intent = "agents" then
      "I build agents that follow contracts, not vibes. What’s your agent’s mandate—observe, decide, or execute?"
    else if intent = "dev" then
      "I keep it boring: strict I/O contracts + append-only receipts. What stack are you using and where does state live?"
    else if intent = "ops" then
      "Ops is an audit problem: evidence-first, fail-closed, deterministic outputs. What’s your #1 automation target?"
    else if intent = "construction" then
      "I’m here to kill rework: canon + deterministic checks. Are you more estimating, submittals, or field QA?"
    else if intent = "security" then
      "Security = policy + least privilege + receipts. OAuth user-context or service keys?"
    else if intent = "trading" then
      "I focus on execution discipline and auditability, not predictions. Are you building a scanner, executor, or risk governor?"
    else
      "I’m building deterministic automation with receipts—no hype. What are you working on right now?"

/-- Daily rotating posts: one `post` per channel whose cooldown has
elapsed (or that never posted). -/
def planDaily (cfg : PlanConfig) (now : Int) (snip : String)
    (state : DragonState) : List JVal :=
  let day_index := now.fdiv cfg.daily_post_cooldown_sec
  let mk : String → Option Int → List JVal := fun channel last =>
    if (match last with
        | none => true
        | some l => cfg.daily_post_cooldown_sec ≤ now - l) then
      [JVal.obj
        [("action_id", .str ("daily:" ++ channel ++ ":" ++ toString day_index)),
         ("channel", .str channel),
         ("type", .str "post"),
         ("text", .str (formatTemplate (_pick_template channel day_index) snip)),
         ("metadata", .obj [("kind", .str "daily_status"), ("day_index", .num day_index)])]]
    else []
  mk "x" state.last_daily_post_unix_x ++ mk "moltbook" state.last_daily_post_unix_moltbook

/-- The user object the mention loop reads: `users.get(author_id) or {}`. -/
def userFor (users : List (String × JVal)) (author_id : String) : JVal :=
  match alookup users author_id with
  | some u => pyOr u (.obj [])
  | none => .obj []

/-- The reactive mention-reply loop: stop at
`max_mention_replies_per_run`, skip id-less tweets, emit one reply per
remaining mention. -/
def mentionLoop (cfg : PlanConfig) (users : List (String × JVal)) :
    List JVal → Int → List JVal
  | [], _ => []
  | t :: rest, replies =>
    if cfg.max_mention_replies_per_run ≤ replies then []
    else
      let tid := pyOrStr (jGetD t "id" .null)
      if tid = "" then mentionLoop cfg users rest replies
      else
        let author_id := pyOrStr (jGetD t "author_id" .null)
        let uname := pyOrStr (jGetD (userFor users author_id) "username" .null)
        let pfx := if uname = "" then "" else "@" ++ uname ++ " "
        let text := pyOrStr (jGetD t "text" .null)
        let intent := _classify_intent text
        let body := _reply_body intent false
        JVal.obj
          [("action_id", .str ("x_mention_reply:" ++ tid)),
           ("channel", .str "x"),
           ("type", .str "reply"),
           ("in_reply_to", .str tid),
           ("text", .str (pfx ++ body)),
           ("metadata", .obj [("kind", .str "mention_reply"), ("intent", .str intent)])]
          :: mentionLoop cfg users rest (replies + 1)

/-- Accumulator of the per-label initiation loop. -/
structure InitAcc where
  actions : List JVal
  replied : List (String × Int)
  per_author : List (String × Int)

/-- The per-label initiation loop: per-label cap on `initiated`, dedupe
against the replied set, `per_author.setdefault` then per-author cap,
follower filter (unknown follower count passes), then emit and reserve. -/
def initLoop (cfg : PlanConfig) (now : Int) (label : String)
    (users : List (String × JVal)) :
    List JVal → List (String × Int) → List (String × Int) → Int → InitAcc
  | [], replied, pa, _ => ⟨[], replied, pa⟩
  | t :: rest, replied, pa, initiated =>
    if cfg.max_initiate_replies_per_run ≤ initiated then ⟨[], replied, pa⟩
    else
      let tid := pyOrStr (jGetD t "id" .null)
      if tid = "" then initLoop cfg now label users rest replied pa initiated
      else if (alookup replied tid).isSome then
        initLoop cfg now label users rest replied pa initiated
      else
        let author_id := pyOrStr (jGetD t "author_id" .null)
        if author_id = "" then initLoop cfg now label users rest replied pa initiated
        else
          let pa1 := if (alookup pa author_id).isSome then pa else mapSet pa author_id 0
          if cfg.max_replies_per_author_per_run ≤ (alookup pa1 author_id).getD 0 then
            initLoop cfg now label users rest replied pa1 initiated
          else
            let u := userFor users author_id
            let metrics := pyOr (jGetD u "public_metrics" .null) (.obj [])
            let followersBlocked : Bool :=
              match jLookup metrics "followers_count" with
              | some (.num f) => f < cfg.min_followers_to_reply
              | some (.bool b) => (if b then (1 : Int) else 0) < cfg.min_followers_to_reply
              | _ => false
            if followersBlocked then initLoop cfg now label users rest replied pa1 initiated
            else
              let uname := pyOrStr (jGetD u "username" .null)
              let pfx := if uname = "" then "" else "@" ++ uname ++ " "
              let text := pyOrStr (jGetD t "text" .null)
              let intent := _classify_intent text
              let body := _reply_body intent true
              let act := JVal.obj
                [("action_id", .str ("x_initiate_reply:" ++ label ++ ":" ++ tid)),
                 ("channel", .str "x"),
                 ("type", .str "reply"),
                 ("in_reply_to", .str tid),
                 ("text", .str (pfx ++ body)),
                 ("metadata", .obj
                   [("kind", .str "initiate_reply"), ("intent", .str intent),
                    ("search_label", .str label)])]
              let pa2 := mapSet pa1 author_id ((alookup pa1 author_id).getD 0 + 1)
              let replied2 := mapSet replied tid now
              let r := initLoop cfg now label users rest replied2 pa2 (initiated + 1)
              ⟨act :: r.actions, r.replied, r.per_author⟩

/-- Accumulator of the outer search loop. -/
structure SearchAcc where
  actions : List JVal
  since_ids : List (String × Option String)
  replied : List (String × Int)
  per_author : List (String × Int)

/-- The outer search loop: per label, record the cursor (even when the
batch is skipped), then run the initiation loop with `initiated` reset to
0 while `replied` and `per_author` thread through the whole run. -/
def searchLoop (cfg : PlanConfig) (now : Int) :
    List (String × JVal) → List (String × Int) → List (String × Int) → SearchAcc
  | [], replied, pa => ⟨[], [], replied, pa⟩
  | (label, payload) :: rest, replied, pa =>
    let tweetsV := pyOr (jGetD payload "data" .null) (.arr [])
    let users := _extract_user_map payload
    let cur : Option String :=
      match tweetsV with
      | .arr (t :: ts) => _max_id (t :: ts)
      | _ => none
    match tweetsV with
    | .arr (t :: ts) =>
      let r := initLoop cfg now label users (t :: ts) replied pa 0
      let rst := searchLoop cfg now rest r.replied r.per_author
      ⟨r.actions ++ rst.actions, (label, cur) :: rst.since_ids, rst.replied, rst.per_author⟩
    | _ =>
      let rst := searchLoop cfg now rest replied pa
      ⟨rst.actions, (label, cur) :: rst.since_ids, rst.replied, rst.per_author⟩

/-- Return value of `plan_actions`. -/
structure PlanResult where
  actions : List JVal
  new_mentions_since_id : Option String
  new_search_since_ids : List (String × Option String)
  replied_tweet_ids : Option (List (String × Int))

/-- Embedding of `plan_actions`: daily posts, then reactive mention replies and the
mentions cursor, then search-driven initiations with their per-label
cursors; the replied-id set is written back only when the searches dict is
truthy. -/
def plan_actions (cfg : PlanConfig) (now : Int) (snip : String)
    (state : DragonState) (mentions_payload : Option JVal)
    (searches : Option (List (String × JVal))) : PlanResult :=
  let daily := planDaily cfg now snip state
  let mentionsPart : List JVal × Option String :=
    match mentions_payload with
    | none => ([], none)
    | some p =>
      if pyFalsy p then ([], none)
      else
        let tweetsV := pyOr (jGetD p "data" .null) (.arr [])
        match tweetsV with
        | .arr (t :: ts) =>
          let users := _extract_user_map p
          (mentionLoop cfg users (t :: ts) 0, _max_id (t :: ts))
        | _ => ([], none)
  let runSearch : Option (List (String × JVal)) :=
    match searches with
    | none => none
    | some s => if s.isEmpty then none else some s
  match runSearch with
  | none =>
    { actions := daily ++ mentionsPart.1,
      new_mentions_since_id := mentionsPart.2,
      new_search_since_ids := [],
      replied_tweet_ids := state.replied_tweet_ids }
  | some s =>
    let sp := searchLoop cfg now s ((state.replied_tweet_ids).getD []) []
    { actions := daily ++ mentionsPart.1 ++ sp.actions,
      new_mentions_since_id := mentionsPart.2,
      new_search_since_ids := sp.since_ids,
      replied_tweet_ids := some sp.replied }

/-!
## Conversation throttling (modelled from the spec)

No file under `src/dragon_core` implements conversation memory: the
`DragonState` dataclass has no `conversation_memory` field and the mention
loop of `plan_actions` applies no per-conversation limit.  The spec
describes the repository as spanning several revisions of the planner and
state modules and specifies conversation throttling for the canonical
one, so the throttled mention loop is modelled here from the spec's
words.
-/

/-- Modelled from the spec: one `conversation_memory` entry,
`{reply_count_24h: int, last_reply_at: unix timestamp}` (the planner/state
revision carrying this map is not under `src/`). -/
structure ConvEntry where
  reply_count_24h : Nat
  last_reply_at : Int
deriving DecidableEq

/-- Modelled from the spec: the per-24h conversation cap (default 2) and
the conversation cooldown (default 2h). -/
structure ThrottleConfig where
  conv_cap_per_24h : Nat := 2
  conv_cooldown_sec : Int := 7200

/-- Modelled from the spec: a reply into a conversation is allowed only if
the rolling count is below the cap AND the time since the conversation's
last reply exceeds the cooldown; an unknown conversation is
unconstrained. -/
def convReplyAllowed (tcfg : ThrottleConfig) (now : Int) (e : Option ConvEntry) : Bool :=
  match e with
  | none => true
  | some e =>
    decide (e.reply_count_24h < tcfg.conv_cap_per_24h) &&
    decide (tcfg.conv_cooldown_sec < now - e.last_reply_at)

/-- Modelled from the spec: a tweet lacking a resolvable conversation id
falls back to its own id. -/
def convIdOf (t : JVal) (tid : String) : String :=
  let cid := pyOrStr (jGetD t "conversation_id" .null)
  if cid = "" then tid else cid

/-- Modelled from the spec: reserving the slot immediately upon deciding
to reply — bump the rolling count and stamp the reply time. -/
def reserveConv (mem : List (String × ConvEntry)) (conv : String) (now : Int) :
    List (String × ConvEntry) :=
  match alookup mem conv with
  | some e => mapSet mem conv ⟨e.reply_count_24h + 1, now⟩
  | none => mapSet mem conv ⟨1, now⟩

/-- Modelled from the spec: the reactive mention loop with conversation
throttling; each emitted reply is paired with its conversation id, and the
slot is reserved in the working copy of conversation memory before the
loop continues. -/
def mentionLoopThrottled (maxReplies : Int) (tcfg : ThrottleConfig) (now : Int) :
    List JVal → List (String × ConvEntry) → Int →
      List (String × JVal) × List (String × ConvEntry)
  | [], mem, _ => ([], mem)
  | t :: rest, mem, replies =>
    if maxReplies ≤ replies then ([], mem)
    else
      let tid := pyOrStr (jGetD t "id" .null)
      if tid = "" then mentionLoopThrottled maxReplies tcfg now rest mem replies
      else
        let conv := convIdOf t tid
        if convReplyAllowed tcfg now (alookup mem conv) = false then
          mentionLoopThrottled maxReplies tcfg now rest mem replies
        else
          let mem1 := reserveConv mem conv now
          let act := JVal.obj
            [("action_id", .str ("x_mention_reply:" ++ tid)),
             ("channel", .str "x"), ("type", .str "reply"),
             ("in_reply_to", .str tid)]
          let r := mentionLoopThrottled maxReplies tcfg now rest mem1 (replies + 1)
          ((conv, act) :: r.1, r.2)

/-!
## Derived definitions used by the claim statements
-/

/-- Number of initiated (search-driven) replies in a planning result,
identified by their `x_initiate_reply:` action-id scheme. -/
def initiateReplyCount (r : PlanResult) : Nat :=
  (r.actions.filter (fun a =>
    listHasPre "x_initiate_reply:".toList
      (pyStr (jGetD a "action_id" (.str ""))).toList)).length

/-- Two search labels of three eligible tweets each (distinct authors, no
user objects so the follower filter passes): the failing input for the
initiation cap. -/
def searchesTwoLabels : List (String × JVal) :=
  [("a", .obj [("data", .arr
      [.obj [("id", .str "1"), ("author_id", .str "a1"), ("text", .str "hi")],
       .obj [("id", .str "2"), ("author_id", .str "a2"), ("text", .str "hi")],
       .obj [("id", .str "3"), ("author_id", .str "a3"), ("text", .str "hi")]])]),
   ("b", .obj [("data", .arr
      [.obj [("id", .str "4"), ("author_id", .str "b1"), ("text", .str "hi")],
       .obj [("id", .str "5"), ("author_id", .str "b2"), ("text", .str "hi")],
       .obj [("id", .str "6"), ("author_id", .str "b3"), ("text", .str "hi")]])])]

/-- The job object `enqueue_actions` writes for an action with a truthy
string `action_id`: the id re-stamped, `created_unix` set if absent. -/
def stampAction (now : Int) (a : JVal) (action_id : String) : JVal :=
  let a1 := jSet a "action_id" (.str action_id)
  if (jLookup a1 "created_unix").isSome then a1
  else jSet a1 "created_unix" (.num now)

/-!
## Lemma infrastructure
-/

theorem alookup_mapSet_ne {α : Type} (m : List (String × α)) (k c : String) (v : α)
    (h : k ≠ c) : alookup (mapSet m k v) c = alookup m c := by
  induction m with
  | nil => simp [mapSet, alookup, h]
  | cons p rest ih =>
    obtain ⟨k', v'⟩ := p
    by_cases hk : k' = k
    · subst hk
      simp [mapSet, alookup, h]
    · simp only [mapSet, if_neg hk]
      by_cases hc : k' = c
      · subst hc; simp [alookup]
      · simp [alookup, hc, ih]

theorem reserveConv_lookup_other (mem : List (String × ConvEntry))
    (conv c : String) (now : Int) (h : conv ≠ c) :
    alookup (reserveConv mem conv now) c = alookup mem c := by
  unfold reserveConv
  cases alookup mem conv with
  | none => exact alookup_mapSet_ne mem conv c _ h
  | some e => exact alookup_mapSet_ne mem conv c _ h

theorem lexLe_refl : ∀ x, lexLe x x = true := by
  intro x
  induction x with
  | nil => rfl
  | cons a as ih => simp [lexLe, ih]

theorem lexLe_total : ∀ x y, lexLe x y = true ∨ lexLe y x = true := by
  intro x
  induction x with
  | nil => intro y; left; rfl
  | cons a as ih =>
    intro y
    cases y with
    | nil => right; rfl
    | cons b bs =>
      simp only [lexLe]
      rcases Nat.lt_trichotomy a.toNat b.toNat with h | h | h
      · left; simp [h]
      · have h1 : ¬ a.toNat < b.toNat := by omega
        have h2 : ¬ b.toNat < a.toNat := by omega
        rcases ih bs with h3 | h3 <;> simp [h1, h2, h3]
      · right; simp [h, Nat.lt_asymm h]

theorem lexLe_trans : ∀ x y z, lexLe x y = true → lexLe y z = true → lexLe x z = true := by
  intro x
  induction x with
  | nil => intro y z _ _; rfl
  | cons a as ih =>
    intro y z hxy hyz
    cases y with
    | nil => simp [lexLe] at hxy
    | cons b bs =>
      cases z with
      | nil => simp [lexLe] at hyz
      | cons c cs =>
        simp only [lexLe] at hxy hyz ⊢
        by_cases h1 : a.toNat < b.toNat
        · by_cases h2 : b.toNat < c.toNat
          · have h : a.toNat < c.toNat := Nat.lt_trans h1 h2
            simp [h]
          · by_cases h3 : c.toNat < b.toNat
            · simp [Nat.lt_asymm h3, h3] at hyz
            · have h : a.toNat < c.toNat := by omega
              simp [h]
        · by_cases h4 : b.toNat < a.toNat
          · simp [h1, h4] at hxy
          · by_cases h2 : b.toNat < c.toNat
            · have h : a.toNat < c.toNat := by omega
              simp [h]
            · by_cases h3 : c.toNat < b.toNat
              · simp [Nat.lt_asymm h3, h3] at hyz
              · have h5 : ¬ a.toNat < c.toNat := by omega
                have h6 : ¬ c.toNat < a.toNat := by omega
                simp only [h1, h4, if_false, if_neg] at hxy
                simp only [h2, h3, if_false, if_neg] at hyz
                simp [h5, h6, ih bs cs hxy hyz]

theorem strLe_refl (s : String) : strLe s s = true := lexLe_refl _

theorem strLe_total (s t : String) : strLe s t = true ∨ strLe t s = true :=
  lexLe_total _ _

theorem strLe_trans (s t u : String) :
    strLe s t = true → strLe t u = true → strLe s u = true :=
  lexLe_trans _ _ _

theorem sortNames_spec (l : List String) :
    (sortNames l = [] → l = []) ∧
    (∀ m t, sortNames l = m :: t → m ∈ l ∧ ∀ y ∈ l, strLe m y = true) := by
  induction l with
  | nil =>
    refine ⟨fun _ => rfl, fun m t h => ?_⟩
    simp [sortNames] at h
  | cons x xs ih =>
    obtain ⟨ih1, ih2⟩ := ih
    constructor
    · intro h
      cases hs : sortNames xs with
      | nil =>
        rw [sortNames, hs] at h
        simp [insertSorted] at h
      | cons m' t' =>
        rw [sortNames, hs] at h
        by_cases hx : strLe x m' = true
        · simp [insertSorted, hx] at h
        · simp [insertSorted, hx] at h
    · intro m t h
      cases hs : sortNames xs with
      | nil =>
        have hxs : xs = [] := ih1 hs
        rw [sortNames, hs] at h
        simp only [insertSorted] at h
        injection h with h1 h2
        subst h1
        subst hxs
        refine ⟨by simp, ?_⟩
        intro y hy
        simp at hy
        subst hy
        exact strLe_refl _
      | cons m' t' =>
        obtain ⟨hm'mem, hm'min⟩ := ih2 m' t' hs
        rw [sortNames, hs] at h
        by_cases hx : strLe x m' = true
        · rw [insertSorted, if_pos hx] at h
          injection h with h1 h2
          subst h1
          refine ⟨by simp, ?_⟩
          intro y hy
          rcases List.mem_cons.mp hy with rfl | hy'
          · exact strLe_refl _
          · exact strLe_trans _ m' y hx (hm'min y hy')
        · rw [insertSorted, if_neg hx] at h
          injection h with h1 h2
          subst h1
          have hmx : strLe m' x = true := by
            rcases strLe_total x m' with hc | hc
            · exact absurd hc hx
            · exact hc
          refine ⟨List.mem_cons_of_mem x hm'mem, ?_⟩
          intro y hy
          rcases List.mem_cons.mp hy with rfl | hy'
          · exact hmx
          · exact hm'min y hy'

theorem countName_cons {α : Type} (k : String) (v : α) (rest : List (String × α))
    (n : String) :
    countName ((k, v) :: rest) n = (if k = n then 1 else 0) + countName rest n := by
  by_cases hk : k = n <;> simp [countName, List.filter_cons, hk, Nat.add_comm]

theorem existsFile_eq_false_iff {α : Type} (l : List (String × α)) (n : String) :
    existsFile l n = false ↔ countName l n = 0 := by
  induction l with
  | nil => simp [existsFile, alookup, countName]
  | cons p rest ih =>
    obtain ⟨k, v⟩ := p
    by_cases hk : k = n
    · rw [existsFile, alookup, if_pos hk, countName_cons, if_pos hk]
      simp
    · rw [existsFile, alookup, if_neg hk, countName_cons, if_neg hk]
      rw [Nat.zero_add]
      exact ih

theorem insertFile_not_exists {α : Type} (l : List (String × α)) (n : String) (v : α)
    (h : existsFile l n = false) : insertFile l n v = l ++ [(n, v)] := by
  induction l with
  | nil => rfl
  | cons p rest ih =>
    obtain ⟨k, w⟩ := p
    by_cases hk : k = n
    · rw [existsFile, alookup, if_pos hk] at h
      simp at h
    · rw [existsFile, alookup, if_neg hk] at h
      simp only [insertFile, mapSet, if_neg hk]
      rw [List.cons_append]
      have := ih h
      rw [insertFile] at this
      rw [this]

theorem countName_append {α : Type} (l1 l2 : List (String × α)) (n : String) :
    countName (l1 ++ l2) n = countName l1 n + countName l2 n := by
  simp [countName, List.filter_append]

theorem existsFile_append_self {α : Type} (l : List (String × α)) (n : String) (v : α) :
    existsFile (l ++ [(n, v)]) n = true := by
  induction l with
  | nil => simp [existsFile, alookup]
  | cons p rest ih =>
    obtain ⟨k, w⟩ := p
    by_cases hk : k = n <;> simp [existsFile, alookup, hk] at ih ⊢
    exact ih

theorem max_id_go_spec (l : List JVal) : ∀ b : Int, ∃ m : Int,
    _max_id_go l (some b) = some m ∧ b ≤ m ∧
    (∀ t ∈ l, ∀ n, tweetNumId t = some n → n ≤ m) ∧
    (m = b ∨ ∃ t ∈ l, tweetNumId t = some m) := by
  induction l with
  | nil =>
    intro b
    exact ⟨b, rfl, le_refl b, by simp, Or.inl rfl⟩
  | cons t rest ih =>
    intro b
    cases ht : tweetNumId t with
    | none =>
      obtain ⟨m, h1, h2, h3, h4⟩ := ih b
      refine ⟨m, ?_, h2, ?_, ?_⟩
      · rw [_max_id_go, ht]
        exact h1
      · intro t' ht' n hn
        rcases List.mem_cons.mp ht' with rfl | ht''
        · rw [ht] at hn; exact absurd hn (by simp)
        · exact h3 t' ht'' n hn
      · rcases h4 with h4 | ⟨t', ht', hn⟩
        · exact Or.inl h4
        · exact Or.inr ⟨t', List.mem_cons_of_mem t ht', hn⟩
    | some n =>
      obtain ⟨m, h1, h2, h3, h4⟩ := ih (max b n)
      refine ⟨m, ?_, le_trans (le_max_left b n) h2, ?_, ?_⟩
      · rw [_max_id_go, ht]
        exact h1
      · intro t' ht' n' hn'
        rcases List.mem_cons.mp ht' with rfl | ht''
        · rw [ht] at hn'
          injection hn' with hn''
          subst hn''
          exact le_trans (le_max_right b n) h2
        · exact h3 t' ht'' n' hn'
      · rcases h4 with h4 | ⟨t', ht', hn'⟩
        · by_cases hbn : n ≤ b
          · left
            rw [h4, max_eq_left hbn]
          · right
            refine ⟨t, List.mem_cons_self t rest, ?_⟩
            rw [ht, h4, max_eq_right (le_of_not_le hbn)]
        · exact Or.inr ⟨t', List.mem_cons_of_mem t ht', hn'⟩

/-!
## Claims
-/

/-- C1: for every inbound mention belonging to a conversation whose
conversation memory already records a rolling 24h reply count at or above
the per-24h cap, or whose last reply is more recent than the cooldown,
the planner (modelled from the spec, as conversation throttling is absent
from `src/`) emits no reply action for that conversation, regardless of
how many mention-reply slots remain in the run. -/
theorem conversation_throttle_blocks_capped_conversation
    (maxReplies : Int) (tcfg : ThrottleConfig) (now : Int)
    (tweets : List JVal) (mem : List (String × ConvEntry)) (replies : Int)
    (c : String) (e : ConvEntry)
    (hlook : alookup mem c = some e)
    (hblocked : tcfg.conv_cap_per_24h ≤ e.reply_count_24h ∨
                now - e.last_reply_at < tcfg.conv_cooldown_sec) :
    ∀ p ∈ (mentionLoopThrottled maxReplies tcfg now tweets mem replies).1, p.1 ≠ c := by
  have hA : convReplyAllowed tcfg now (alookup mem c) = false := by
    rw [hlook]
    unfold convReplyAllowed
    rcases hblocked with h | h
    · have hn : ¬ e.reply_count_24h < tcfg.conv_cap_per_24h := by omega
      simp [hn]
    · have hn : ¬ tcfg.conv_cooldown_sec < now - e.last_reply_at := by omega
      simp [hn]
  clear hlook hblocked
  induction tweets generalizing mem replies with
  | nil =>
    intro p hp
    simp [mentionLoopThrottled] at hp
  | cons t rest ih =>
    intro p hp
    rw [mentionLoopThrottled] at hp
    by_cases hmax : maxReplies ≤ replies
    · rw [if_pos hmax] at hp
      simp at hp
    · rw [if_neg hmax] at hp
      simp only at hp
      by_cases htid : pyOrStr (jGetD t "id" .null) = ""
      · rw [if_pos htid] at hp
        exact ih mem replies hA p hp
      · rw [if_neg htid] at hp
        by_cases hallow :
            convReplyAllowed tcfg now
              (alookup mem (convIdOf t (pyOrStr (jGetD t "id" .null)))) = false
        · rw [if_pos hallow] at hp
          exact ih mem replies hA p hp
        · rw [if_neg hallow] at hp
          have hconv : convIdOf t (pyOrStr (jGetD t "id" .null)) ≠ c := by
            intro hc
            rw [hc] at hallow
            exact hallow hA
          rcases List.mem_cons.mp hp with rfl | hp'
          · exact hconv
          · have hA1 : convReplyAllowed tcfg now
                (alookup (reserveConv mem (convIdOf t (pyOrStr (jGetD t "id" .null))) now) c)
                  = false := by
              rw [reserveConv_lookup_other _ _ _ _ hconv]
              exact hA
            exact ih _ (replies + 1) hA1 p hp'

/-- Witness for C1: with the default throttle config, a conversation at
the cap (2 replies in the rolling 24h window) gets no reply even with all
three mention slots free. -/
theorem conversation_throttle_blocks_capped_conversation_witness :
    ((mentionLoopThrottled 3 {} 10000
        [JVal.obj [("id", .str "55"), ("conversation_id", .str "c")]]
        [("c", ⟨2, 9999⟩)] 0).1.all (fun p => !(p.1 == "c"))) = true := by
  apply List.all_eq_true.mpr
  intro p hp
  have h := conversation_throttle_blocks_capped_conversation 3 {} 10000
    [JVal.obj [("id", .str "55"), ("conversation_id", .str "c")]]
    [("c", ⟨2, 9999⟩)] 0 "c" ⟨2, 9999⟩ (by decide) (Or.inl (by decide)) p hp
  simpa using h

/-- C2 counterexample: with no external status record at all (empty hawk
directory), `validate_snapshot` raises a contract error naming the missing
`status.json`, rather than yielding ok=true with reason "no external
status". -/
theorem validate_snapshot_missing_status_errors_counterexample :
    validate_snapshot true (fun _ => none) 0 (fun _ => none) 180 =
      .error (.missingInput "status.json") := rfl

/-- C2 (amended): whenever the external status record is absent,
`validate_snapshot` raises `DragonContractError` ("Missing required hawk
input" for `status.json`), aborting the tick instead of degrading to an
ok freshness verdict. -/
theorem validate_snapshot_missing_status_always_errors
    (files : String → Option FileContent) (now : Int)
    (parseTick : String → Option Int) (lim : Int)
    (h : files "status.json" = none) :
    validate_snapshot true files now parseTick lim =
      .error (.missingInput "status.json") := by
  simp [validate_snapshot, loadHawkFiles, REQUIRED_HAWK_FILES, h]

/-- Witness for C2's amended theorem at a concrete runtime. -/
theorem validate_snapshot_missing_status_always_errors_witness :
    validate_snapshot true (fun _ => none) 5 (fun _ => some 0) 180 =
      .error (.missingInput "status.json") :=
  validate_snapshot_missing_status_always_errors (fun _ => none) 5 (fun _ => some 0) 180 rfl

theorem max_id_spec (t0 : JVal) (ts : List JVal)
    (hnum : ∀ t ∈ t0 :: ts, (tweetNumId t).isSome = true) :
    ∃ m : Int, _max_id (t0 :: ts) = some (toString m) ∧
      (∃ t ∈ t0 :: ts, tweetNumId t = some m) ∧
      (∀ t ∈ t0 :: ts, ∀ n, tweetNumId t = some n → n ≤ m) := by
  have h0 := hnum t0 (List.mem_cons_self t0 ts)
  cases ht0 : tweetNumId t0 with
  | none => rw [ht0] at h0; simp at h0
  | some n0 =>
    obtain ⟨m, h1, h2, h3, h4⟩ := max_id_go_spec ts n0
    have e1 : _max_id_go (t0 :: ts) none = _max_id_go ts (some n0) := by
      simp [_max_id_go, ht0]
    refine ⟨m, ?_, ?_, ?_⟩
    · rw [_max_id, e1, h1]
      rfl
    · rcases h4 with h4 | ⟨t', ht', hn'⟩
      · exact ⟨t0, List.mem_cons_self t0 ts, by rw [ht0, h4]⟩
      · exact ⟨t', List.mem_cons_of_mem t0 ht', hn'⟩
    · intro t ht n hn
      rcases List.mem_cons.mp ht with rfl | ht'
      · rw [ht0] at hn
        injection hn with hn'
        subst hn'
        exact h2
      · exact h3 t ht' n hn

theorem plan_actions_cursor_eq (cfg : PlanConfig) (now : Int) (snip : String)
    (state : DragonState) (searches : Option (List (String × JVal)))
    (t0 : JVal) (ts : List JVal) :
    (plan_actions cfg now snip state (some (.obj [("data", .arr (t0 :: ts))]))
        searches).new_mentions_since_id = _max_id (t0 :: ts) := by
  cases searches with
  | none => rfl
  | some s =>
    unfold plan_actions
    cases hs : s.isEmpty <;> simp only [hs] <;> rfl

/-- C3 (amended): for any non-empty batch of inbound mentions with numeric
ids, the planner's returned mentions cursor equals the decimal string of
the maximum id in the batch; the planner does not clamp it against the
stored cursor, so monotonicity with respect to the stored cursor holds
exactly when some batch id is at least the stored value (which the
since_id-filtered fetch provides). -/
theorem plan_actions_mentions_cursor_is_batch_max
    (cfg : PlanConfig) (now : Int) (snip : String) (state : DragonState)
    (searches : Option (List (String × JVal))) (t0 : JVal) (ts : List JVal)
    (hnum : ∀ t ∈ t0 :: ts, (tweetNumId t).isSome = true) :
    ∃ m : Int,
      (plan_actions cfg now snip state (some (.obj [("data", .arr (t0 :: ts))]))
          searches).new_mentions_since_id = some (toString m) ∧
      (∃ t ∈ t0 :: ts, tweetNumId t = some m) ∧
      (∀ t ∈ t0 :: ts, ∀ n, tweetNumId t = some n → n ≤ m) ∧
      (∀ stored : Int,
        (∃ t ∈ t0 :: ts, ∃ n, tweetNumId t = some n ∧ stored ≤ n) → stored ≤ m) := by
  obtain ⟨m, h1, h2, h3⟩ := max_id_spec t0 ts hnum
  refine ⟨m, ?_, h2, h3, ?_⟩
  · rw [plan_actions_cursor_eq, h1]
  · rintro stored ⟨t, htm, n, hn, hsn⟩
    exact le_trans hsn (h3 t htm n hn)

/-- Witness for C3's amended theorem on a concrete two-mention batch: the
returned cursor is the decimal string of the larger id. -/
theorem plan_actions_mentions_cursor_is_batch_max_witness :
    (plan_actions {} 0 "" emptyDefaultState
        (some (.obj [("data",
          .arr (JVal.obj [("id", .str "7")] :: [JVal.obj [("id", .str "3")]]))]))
        none).new_mentions_since_id = some "7" := by
  obtain ⟨m, h1, h2, h3, h4⟩ :=
    plan_actions_mentions_cursor_is_batch_max {} 0 "" emptyDefaultState none
      (JVal.obj [("id", .str "7")]) [JVal.obj [("id", .str "3")]] (by decide)
  rw [h1]
  exact h1.symm.trans rfl

/-- C3 counterexample: with stored cursor "10" and a batch containing only
id "5", the planner returns cursor "5", numerically below the stored
cursor — the returned cursor is not clamped to the cursor in state. -/
theorem plan_actions_cursor_below_stored_counterexample :
    (plan_actions {} 1000000 "" { emptyDefaultState with x_since_id := some "10" }
        (some (.obj [("data", .arr [JVal.obj
          [("id", .str "5"), ("author_id", .str "u1"), ("text", .str "hi")]])]))
        none).new_mentions_since_id = some "5" ∧
    pyToInt "5" = some 5 ∧ pyToInt "10" = some 10 ∧ ¬ ((10 : Int) ≤ 5) :=
  ⟨rfl, rfl, rfl, by decide⟩

/-- C4 evaluation at the failing input: one valid job, successful dispatch.
The stamped copy (with `receipt` and `executed_unix`) is first written to
`sent`, but the subsequent `os.replace` of the source file overwrites it,
so the file that ends up in `sent` is the original job, which carries
neither a `receipt` nor an executed-at timestamp; the job is gone from
the outbox.  This contradicts the documented success path ("Record
receipt + move to sent"). -/
theorem execute_outbox_sent_file_lacks_receipt :
    (execute_outbox ⟨4, 30, true⟩ (fun _ _ _ _ => some (.obj [("id", .str "r1")])) 1000 true
        ⟨[("a1.json", .obj [("action_id", .str "a1"), ("channel", .str "x"),
          ("type", .str "post"), ("text", .str "hello")])], [], []⟩).state.sent =
      [("a1.json", .obj [("action_id", .str "a1"), ("channel", .str "x"),
        ("type", .str "post"), ("text", .str "hello")])] ∧
    (execute_outbox ⟨4, 30, true⟩ (fun _ _ _ _ => some (.obj [("id", .str "r1")])) 1000 true
        ⟨[("a1.json", .obj [("action_id", .str "a1"), ("channel", .str "x"),
          ("type", .str "post"), ("text", .str "hello")])], [], []⟩).state.outbox = [] ∧
    (execute_outbox ⟨4, 30, true⟩ (fun _ _ _ _ => some (.obj [("id", .str "r1")])) 1000 true
        ⟨[("a1.json", .obj [("action_id", .str "a1"), ("channel", .str "x"),
          ("type", .str "post"), ("text", .str "hello")])], [], []⟩).executed = 1 ∧
    jLookup (.obj [("action_id", .str "a1"), ("channel", .str "x"),
      ("type", .str "post"), ("text", .str "hello")]) "receipt" = none ∧
    jLookup (.obj [("action_id", .str "a1"), ("channel", .str "x"),
      ("type", .str "post"), ("text", .str "hello")]) "executed_unix" = none :=
  ⟨rfl, rfl, rfl, rfl, rfl⟩

/-- C5 evaluation at the failing input: two search labels with three
eligible tweets each (distinct authors, unknown follower counts pass the
filter).  The `initiated` counter resets for every label, so the run emits
2 initiated replies per label — 4 in total — exceeding the overall
per-run cap `max_initiate_replies_per_run = 2` the config declares. -/
theorem plan_actions_initiation_cap_applies_per_label :
    initiateReplyCount
      (plan_actions {} 1000000 "" emptyDefaultState none (some searchesTwoLabels)) = 4 ∧
    ({} : PlanConfig).max_initiate_replies_per_run = 2 ∧ ¬ ((4 : Int) ≤ 2) :=
  ⟨rfl, rfl, by decide⟩

/-- C8: with `require_freshness_ok = true` and a false freshness gate,
`execute_outbox` performs zero dispatches, executes nothing, and returns
the queue state unchanged — outbox, sent and dead are all untouched, for
every queue state, sender, clock and cap/cooldown configuration. -/
theorem execute_outbox_freshness_gate_noop (m c : Int) (send : Sender)
    (now : Int) (st : QueueState) :
    execute_outbox ⟨m, c, true⟩ send now false st = ⟨st, 0, 0, 0⟩ := rfl

/-- C9: loading persistent state is fail-closed: a missing state file and
a file whose contents are not valid JSON both yield the documented empty
defaults (no cursors, empty search-cursor and replied-id maps, no
daily-post timestamps, no run timestamp), and `load_state` is total — it
never raises. -/
theorem load_state_fail_closed :
    load_state .missing = emptyDefaultState ∧
    load_state .invalid = emptyDefaultState ∧
    emptyDefaultState.x_user_id = none ∧
    emptyDefaultState.x_since_id = none ∧
    emptyDefaultState.x_search_since_ids = some [] ∧
    emptyDefaultState.replied_tweet_ids = some [] ∧
    emptyDefaultState.last_daily_post_unix_x = none ∧
    emptyDefaultState.last_daily_post_unix_moltbook = none ∧
    emptyDefaultState.last_run_unix = none :=
  ⟨rfl, rfl, rfl, rfl, rfl, rfl, rfl, rfl, rfl⟩

theorem enqueue_actions_nil (genId : Nat → String) (now : Int)
    (outbox : List (String × JVal)) (ctr : Nat) :
    enqueue_actions genId now outbox [] ctr = ⟨outbox, [], ctr⟩ := rfl

theorem enqueue_actions_cons (genId : Nat → String) (now : Int)
    (outbox : List (String × JVal)) (a : JVal) (rest : List JVal) (ctr : Nat)
    (s : String) (hida : jLookup a "action_id" = some (.str s)) (hs : s ≠ "") :
    enqueue_actions genId now outbox (a :: rest) ctr =
      if existsFile outbox (s ++ ".json") then
        enqueue_actions genId now outbox rest ctr
      else
        ⟨(enqueue_actions genId now
            (insertFile outbox (s ++ ".json") (stampAction now a s)) rest ctr).outbox,
         (s ++ ".json") ::
           (enqueue_actions genId now
             (insertFile outbox (s ++ ".json") (stampAction now a s)) rest ctr).created,
         (enqueue_actions genId now
           (insertFile outbox (s ++ ".json") (stampAction now a s)) rest ctr).ctr⟩ := by
  have hfa : pyFalsy (.str s) = false := by
    simp [pyFalsy]
    exact hs
  rw [enqueue_actions]
  simp only [hida, hfa, Bool.false_eq_true, if_false, pyStr, stampAction]

/-- C6: enqueue is idempotent by action id — with a fresh id `s` absent
from the outbox, enqueuing the same id a second time (either in a later
call or later in the same batch) is a silent no-op: the queue is
unchanged, nothing new is created, the original file is not overwritten,
and exactly one `s.json` job file exists. -/
theorem enqueue_actions_idempotent_by_action_id
    (genId : Nat → String) (now1 now2 : Int) (outbox : List (String × JVal))
    (a b : JVal) (ctr1 ctr2 : Nat) (s : String)
    (hida : jLookup a "action_id" = some (.str s))
    (hidb : jLookup b "action_id" = some (.str s))
    (hs : s ≠ "")
    (habs : countName outbox (s ++ ".json") = 0) :
    (enqueue_actions genId now2
        (enqueue_actions genId now1 outbox [a] ctr1).outbox [b] ctr2).outbox =
      (enqueue_actions genId now1 outbox [a] ctr1).outbox ∧
    (enqueue_actions genId now2
        (enqueue_actions genId now1 outbox [a] ctr1).outbox [b] ctr2).created = [] ∧
    countName (enqueue_actions genId now1 outbox [a] ctr1).outbox (s ++ ".json") = 1 ∧
    countName (enqueue_actions genId now1 outbox [a, b] ctr1).outbox (s ++ ".json") = 1 := by
  have hexa : existsFile outbox (s ++ ".json") = false :=
    (existsFile_eq_false_iff _ _).mpr habs
  have hins : insertFile outbox (s ++ ".json") (stampAction now1 a s) =
      outbox ++ [(s ++ ".json", stampAction now1 a s)] :=
    insertFile_not_exists _ _ _ hexa
  have hcount1 : countName
      (outbox ++ [(s ++ ".json", stampAction now1 a s)]) (s ++ ".json") = 1 := by
    rw [countName_append, habs, countName_cons, if_pos rfl]
    simp [countName]
  have hex1 : existsFile
      (outbox ++ [(s ++ ".json", stampAction now1 a s)]) (s ++ ".json") = true :=
    existsFile_append_self _ _ _
  have e1 : enqueue_actions genId now1 outbox [a] ctr1 =
      ⟨outbox ++ [(s ++ ".json", stampAction now1 a s)], [s ++ ".json"], ctr1⟩ := by
    rw [enqueue_actions_cons genId now1 outbox a [] ctr1 s hida hs, if_neg (by simp [hexa]),
      hins, enqueue_actions_nil]
  have e2 : enqueue_actions genId now2
      (outbox ++ [(s ++ ".json", stampAction now1 a s)]) [b] ctr2 =
      ⟨outbox ++ [(s ++ ".json", stampAction now1 a s)], [], ctr2⟩ := by
    rw [enqueue_actions_cons genId now2 _ b [] ctr2 s hidb hs, if_pos (by simp [hex1]),
      enqueue_actions_nil]
  have e3 : enqueue_actions genId now1 outbox [a, b] ctr1 =
      ⟨outbox ++ [(s ++ ".json", stampAction now1 a s)], [s ++ ".json"], ctr1⟩ := by
    rw [enqueue_actions_cons genId now1 outbox a [b] ctr1 s hida hs, if_neg (by simp [hexa]),
      hins, enqueue_actions_cons genId now1 _ b [] ctr1 s hidb hs, if_pos (by simp [hex1]),
      enqueue_actions_nil]
  rw [e1]
  rw [e2]
  rw [e3]
  exact ⟨rfl, rfl, hcount1, hcount1⟩

/-- Witness for C6: enqueuing the same one-field action twice from an
empty outbox leaves exactly one job file and the second call a no-op. -/
theorem enqueue_actions_idempotent_by_action_id_witness :
    (enqueue_actions (fun _ => "g") 2
        (enqueue_actions (fun _ => "g") 1 [] [JVal.obj [("action_id", .str "a1")]] 0).outbox
        [JVal.obj [("action_id", .str "a1")]] 0).outbox =
      (enqueue_actions (fun _ => "g") 1 [] [JVal.obj [("action_id", .str "a1")]] 0).outbox ∧
    (enqueue_actions (fun _ => "g") 2
        (enqueue_actions (fun _ => "g") 1 [] [JVal.obj [("action_id", .str "a1")]] 0).outbox
        [JVal.obj [("action_id", .str "a1")]] 0).created = [] ∧
    countName (enqueue_actions (fun _ => "g") 1 []
        [JVal.obj [("action_id", .str "a1")]] 0).outbox ("a1" ++ ".json") = 1 ∧
    countName (enqueue_actions (fun _ => "g") 1 []
        [JVal.obj [("action_id", .str "a1")], JVal.obj [("action_id", .str "a1")]] 0).outbox
      ("a1" ++ ".json") = 1 :=
  enqueue_actions_idempotent_by_action_id (fun _ => "g") 1 2 []
    (JVal.obj [("action_id", .str "a1")]) (JVal.obj [("action_id", .str "a1")]) 0 0 "a1"
    rfl rfl (by decide) rfl

theorem isEmpty_false_of_mem {α : Type} {l : List α} {x : α} (h : x ∈ l) :
    l.isEmpty = false := by
  cases l with
  | nil => simp at h
  | cons y ys => rfl

/-- C7: the policy validator accumulates all independent violations: for
every action whose text strips to empty and whose normalized channel is
neither `moltbook` nor `x`, the verdict is allowed=false and the reasons
list carries both `empty` and `invalid_channel`. -/
theorem validate_action_accumulates_all_violations (action : JVal)
    (hch : ¬ (sLower (sTrim (pyStr (jGetD action "channel" (.str "")))) = "moltbook" ∨
              sLower (sTrim (pyStr (jGetD action "channel" (.str "")))) = "x"))
    (htx : sTrim (pyStr (jGetD action "text" (.str ""))) = "") :
    (validate_action action).1 = false ∧
    "empty" ∈ (validate_action action).2.1 ∧
    "invalid_channel" ∈ (validate_action action).2.1 := by
  have he : evaluate_text "" = ⟨false, ["empty"], ""⟩ := rfl
  unfold validate_action
  rw [htx]
  simp only [he, if_neg hch]
  refine ⟨?_, ?_, ?_⟩
  · exact @isEmpty_false_of_mem String _ "invalid_channel" (by simp)
  · simp
  · simp

/-- Witness for C7: an action with blank text and channel `bogus` is
blocked with both reason codes reported. -/
theorem validate_action_accumulates_all_violations_witness :
    (validate_action (.obj [("type", .str "post"), ("channel", .str "bogus"),
        ("text", .str " ")])).1 = false ∧
    "empty" ∈ (validate_action (.obj [("type", .str "post"), ("channel", .str "bogus"),
        ("text", .str " ")])).2.1 ∧
    "invalid_channel" ∈ (validate_action (.obj [("type", .str "post"),
        ("channel", .str "bogus"), ("text", .str " ")])).2.1 :=
  validate_action_accumulates_all_violations
    (.obj [("type", .str "post"), ("channel", .str "bogus"), ("text", .str " ")])
    (by decide) (by decide)

/-- C10: for every limit at most 1 — including 0 and negative values —
`list_outbox` on a non-empty outbox returns exactly the lexicographically
first job name; the batch cap is clamped below at one, so a tiny limit
never yields an empty batch. -/
theorem list_outbox_clamps_limit_below_at_one
    (outbox : List (String × JVal)) (limit : Int)
    (hlim : limit ≤ 1) (hne : outbox ≠ []) :
    ∃ m, list_outbox outbox limit = [m] ∧ m ∈ outbox.map Prod.fst ∧
      ∀ y ∈ outbox.map Prod.fst, strLe m y = true := by
  have hnames : outbox.map Prod.fst ≠ [] := by
    intro h
    exact hne (List.map_eq_nil_iff.mp h)
  obtain ⟨hn, hspec⟩ := sortNames_spec (outbox.map Prod.fst)
  cases hsort : sortNames (outbox.map Prod.fst) with
  | nil => exact absurd (hn hsort) hnames
  | cons m t =>
    obtain ⟨hmem, hmin⟩ := hspec m t hsort
    refine ⟨m, ?_, hmem, hmin⟩
    rw [list_outbox, hsort, max_eq_left hlim]
    rfl

/-- Witness for C10: limit 0 on a two-job outbox still returns the
lexicographically first job. -/
theorem list_outbox_clamps_limit_below_at_one_witness :
    list_outbox [("b.json", JVal.null), ("a.json", JVal.null)] 0 = ["a.json"] := by
  obtain ⟨m, h1, h2, h3⟩ := list_outbox_clamps_limit_below_at_one
    [("b.json", JVal.null), ("a.json", JVal.null)] 0 (by decide) (by simp)
  rw [h1]
  exact h1.symm.trans rfl

end Dragon










